import Mathlib

/-!
Verification development for the verdaccio uplink proxy client
(`src/packages/proxy/src/proxy.ts`).

The TypeScript class `ProxyStorage` is shallowly embedded: JS plain objects
used as HTTP header maps become ordered association lists of strings, the
mutable health state (`failed_requests`, `last_request_time`) becomes an
explicit state record threaded through transition functions, thrown errors
become `Except` values, and streams become the list of events they emit.

External collaborators are modelled at their interface, as the source uses
them:

* the `got` HTTP client resolves a response whose status is 2xx or 304 (its
  `throwHttpErrors` behaviour with `followRedirect` enabled) and raises an
  error carrying code `ERR_NON_2XX_3XX_RESPONSE` for every other status —
  this is exactly the error code the source branches on;
* `JSONStream.parse` with the wildcard-free path `objects` emits the value
  found at the top-level key `objects` once, when present;
* `encodeURIComponent` percent-encodes per UTF-8 byte, keeping the
  unreserved characters; strings are therefore modelled as their UTF-8 byte
  sequences (lists of naturals below 256).
-/

namespace VerdaccioProxy

/-- JSON values: manifest bodies and search-response bodies. -/
inductive Json where
  | null
  | bool (b : Bool)
  | num (n : Int)
  | str (s : String)
  | arr (elems : List Json)
  | obj (fields : List (String × Json))

/-- Reading a top-level field of a JSON object (as `body.objects` does in JS). -/
def Json.lookup : Json → String → Option Json
  | .obj fields, key => (fields.find? (fun p => p.1 == key)).map (·.2)
  | _, _ => none

/-- Error kinds raised by the proxy, following the `errorUtils` constructors and
message constants used in `proxy.ts` (`UPLINK_OFFLINE`, `NOT_MODIFIED_NO_DATA`,
`NOT_PACKAGE_UPLINK`, `BAD_STATUS_CODE`, `NOT_FILE_UPLINK`, `CONTENT_MISMATCH`,
`token_required`, the two auth `Error` throws, and transport errors passed
through from the HTTP layer). -/
inductive UErr where
  | uplinkOffline
  | notModifiedNoData
  | notFoundUplink
  | badStatusCode (remoteStatus : Nat)
  | notFileUplink
  | contentMismatch
  | tokenRequired
  | authInvalid
  | transport (message : String)
deriving DecidableEq

/-! ## Header maps

JS plain objects keyed by header-name strings.  Keys are case sensitive at
the object level (the source mixes cases, e.g. it reads
`headers['x-forwarded-for']` but writes `HEADERS.FORWARDED_FOR`); HTTP-level
presence of a header is the case-insensitive `hasHeaderCI`. -/

/-- Header map: ordered association list standing for a JS object. A JS object
cannot hold two entries with the same key; all maps built here preserve that. -/
abbrev HeadersL := List (String × String)

/-- Reading `headers[k]`. -/
def getH (hs : HeadersL) (k : String) : Option String :=
  (hs.find? (fun p => p.1 == k)).map (·.2)

/-- Writing `headers[k] = v`: overwrite in place if the key exists, else append. -/
def setH (hs : HeadersL) (k v : String) : HeadersL :=
  if hs.any (fun p => p.1 == k) then
    hs.map (fun p => if p.1 == k then (k, v) else p)
  else hs ++ [(k, v)]

/-- JS truthiness of an optional string value: absent and `""` are falsy. -/
def truthy : Option String → Bool
  | some s => !(s == "")
  | none => false

/-- Lower-casing, for `type.toLowerCase()` and case-insensitive header names. -/
def lowerStr (s : String) : String := String.mk (s.data.map Char.toLower)

/-- Case-insensitive presence of a header name (HTTP semantics of the wire). -/
def hasHeaderCI (hs : HeadersL) (name : String) : Bool :=
  hs.any (fun p => lowerStr p.1 == lowerStr name)

/-! ## Health tracker (circuit breaker) -/

/-- Immutable per-uplink limits (`max_fails`, `fail_timeout` in ms), parsed in
the `ProxyStorage` constructor (proxy.ts:161-162). -/
structure UplinkLimits where
  max_fails : Nat
  fail_timeout : Nat
deriving DecidableEq

/-- Mutable health state of a `ProxyStorage` instance (proxy.ts:99,116).
`last_request_time` starts unset. -/
structure HealthState where
  failed_requests : Nat
  last_request_time : Option Int
deriving DecidableEq

/-- From `_ifRequestFailure` (proxy.ts:984-989):
`failed_requests >= max_fails && Math.abs(Date.now() - last_request_time) < fail_timeout`.
When `last_request_time` is unset the JS subtraction yields `NaN` and the
comparison is false, hence the `none` branch. -/
def ifRequestFailure (lim : UplinkLimits) (st : HealthState) (now : Int) : Bool :=
  decide (lim.max_fails ≤ st.failed_requests) &&
    (match st.last_request_time with
     | some t => decide ((now - t).natAbs < lim.fail_timeout)
     | none => false)

/-- Log messages produced by the health hooks of `getRemoteMetadataNext`. -/
inductive LogMsg where
  | backOnline
  | nowOffline
  | retryInfo (count : Nat)
deriving DecidableEq

/-- The `request` event handler (proxy.ts:615-617): every issued request
stamps `last_request_time = Date.now()`. -/
def onRequestIssued (st : HealthState) (now : Int) : HealthState :=
  { st with last_request_time := some now }

/-- The `afterResponse` hook (proxy.ts:570-587): on a 2xx status, if the
failure counter is at least `max_fails`, reset it to 0 and log the
back-online message; otherwise leave the state alone. -/
def afterResponseHook (lim : UplinkLimits) (st : HealthState) (status : Nat) :
    HealthState × List LogMsg :=
  if 200 ≤ status ∧ status < 300 then
    if lim.max_fails ≤ st.failed_requests then
      ({ st with failed_requests := 0 }, [LogMsg.backOnline])
    else (st, [])
  else (st, [])

/-- The `beforeRetry` hook (proxy.ts:588-612): set `failed_requests` to the
retry count (`count ?? 0`), log the retry, and when the counter has reached
`max_fails` log the offline message. -/
def beforeRetryHook (lim : UplinkLimits) (st : HealthState) (count : Option Nat) :
    HealthState × List LogMsg :=
  let fr := count.getD 0
  ({ st with failed_requests := fr },
    LogMsg.retryInfo fr :: (if lim.max_fails ≤ fr then [LogMsg.nowOffline] else []))

/-! ## Auth (`setAuthNext`, `_setHeaderAuthorization`) -/

/-- Values the polymorphic `auth.token_env` config field can take. -/
inductive TokenEnvV where
  | str (s : String)
  | bool (b : Bool)
deriving DecidableEq

/-- Object-shaped `auth` uplink config. `token` models the
string-valued-and-present case checked by `isNil`/`isString` (proxy.ts:438). -/
structure AuthConf where
  type : Option String
  token : Option String
  token_env : Option TokenEnvV
deriving DecidableEq

/-- The configured `auth` value: a proper object, or a non-object value which
fails the `isObject` guard (proxy.ts:428). -/
inductive AuthSetting where
  | obj (c : AuthConf)
  | nonObject
deriving DecidableEq

/-- Process environment. -/
abbrev Env := String → Option String

/-- Token resolution inside `setAuthNext` (proxy.ts:435-451): literal string
token first; else a string `token_env` names an environment variable; a true
boolean `token_env` selects `NPM_TOKEN`; any other set `token_env` fails with
the token-required error; unset `token_env` falls back to `NPM_TOKEN`. -/
def resolveAuthToken (c : AuthConf) (env : Env) : Except UErr (Option String) :=
  match c.token with
  | some t => .ok (some t)
  | none =>
    match c.token_env with
    | some (.str name) => .ok (env name)
    | some (.bool true) => .ok (env "NPM_TOKEN")
    | some (.bool false) => .error .tokenRequired
    | none => .ok (env "NPM_TOKEN")

/-- Lodash `upperFirst`: first character upper-cased, the rest untouched. -/
def upperFirst (s : String) : String :=
  match s.data with
  | [] => ""
  | c :: cs => String.mk (c.toUpper :: cs)

/-- The effective auth type, `tokenConf.type || TOKEN_BASIC` (proxy.ts:458):
the falsy values (absent or empty string) default to `Basic`. -/
def authTypeOf (c : AuthConf) : String :=
  match c.type with
  | some t => if t == "" then "Basic" else t
  | none => "Basic"

/-- From `_setHeaderAuthorization` (proxy.ts:481-490): reject a type whose
lower-casing is neither `bearer` nor `basic`; otherwise set the
`Authorization` header to `upperFirst type ++ " " ++ token` (the
`buildToken` format). -/
def setHeaderAuthorization (hs : HeadersL) (ty token : String) : Except UErr HeadersL :=
  if lowerStr ty ≠ "bearer" ∧ lowerStr ty ≠ "basic" then .error .authInvalid
  else .ok (setH hs "Authorization" (upperFirst ty ++ " " ++ token))

/-- From `setAuthNext` (proxy.ts:421-462). Returns the headers unchanged when
no auth is configured or an `Authorization` value is already present
(truthiness test on the JS object read). -/
def setAuthNext (auth : Option AuthSetting) (env : Env) (hs : HeadersL) : Except UErr HeadersL :=
  if auth.isNone ∨ truthy (getH hs "Authorization") then .ok hs
  else
    match auth with
    | none => .ok hs
    | some .nonObject => .error .authInvalid
    | some (.obj c) =>
      match resolveAuthToken c env with
      | .error e => .error e
      | .ok none => .error .tokenRequired
      | .ok (some token) => setHeaderAuthorization hs (authTypeOf c) token

/-! ## Header pipeline of the promise-style requests -/

/-- The per-uplink immutable request context: `hasAgent` is whether an
explicit proxy agent was constructed (proxy.ts:139-144, true iff a proxy URL
string was resolved), plus `server_id`, `user_agent`, the `auth` config and
the `config.headers` overrides. -/
structure UplinkCfg where
  hasAgent : Bool
  serverId : String
  userAgent : String
  auth : Option AuthSetting
  configHeaders : List (String × String)

/-- The idiom `headers[k] = headers[k] || v` (proxy.ts:358-361). -/
def orSet (hs : HeadersL) (k v : String) : HeadersL :=
  if truthy (getH hs k) then hs else setH hs k v

/-- From `getHeadersNext` (proxy.ts:353-364): default `Accept`,
`Accept-Encoding` and `User-Agent` when the caller did not set them, then
apply auth. `contentTypeAccept` is `application/json;`. -/
def getHeadersNext (cfg : UplinkCfg) (env : Env) (headers : HeadersL) : Except UErr HeadersL :=
  let hs := orSet headers "Accept" "application/json;"
  let hs := orSet hs "Accept-Encoding" "gzip"
  let hs := orSet hs "User-Agent" ("npm (" ++ cfg.userAgent ++ ")")
  setAuthNext cfg.auth env hs

/-- JS string coercion of a possibly-undefined string, as in
`'' + remoteAddress`: an absent value prints as `undefined`. -/
def jsStr : Option String → String
  | some s => s
  | none => "undefined"

/-- The idiom `(headers[k] ? headers[k] + ', ' : '')` used for both the
`x-forwarded-for` and `via` chains (proxy.ts:933-938). -/
def priorThen (v : Option String) : String :=
  if truthy v then v.getD "" ++ ", " else ""

/-- From `addProxyHeadersNext` (proxy.ts:927-942): when no explicit proxy
agent is configured, set `X-Forwarded-For` to the prior chain (read from the
lower-case key) plus the remote address; always append
`1.1 <server_id> (Verdaccio)` to the `via` chain. -/
def addProxyHeadersNext (cfg : UplinkCfg) (headers : HeadersL) (remoteAddress : Option String) :
    HeadersL :=
  let hs :=
    if cfg.hasAgent then headers
    else
      setH headers "X-Forwarded-For"
        (priorThen (getH headers "x-forwarded-for") ++ jsStr remoteAddress)
  setH hs "via" (priorThen (getH hs "via") ++ ("1.1 " ++ cfg.serverId ++ " (Verdaccio)"))

/-- From `applyUplinkHeaders` (proxy.ts:524-535): copy every `config.headers`
entry over the built headers, in order. -/
def applyUplinkHeaders (configHeaders : List (String × String)) (hs : HeadersL) : HeadersL :=
  configHeaders.foldl (fun acc kv => setH acc kv.1 kv.2) hs

/-- Caller options relevant to header building (`ISyncUplinksOptions`). -/
structure ReqOptions where
  headers : HeadersL
  remoteAddress : Option String
  etag : Option String

/-- The non-overridable conditional-request headers (proxy.ts:551-554 and
732-735): when `options.etag` is set (even to `""`, the check is `isNil`),
force `If-None-Match` and `Accept`. -/
def clampEtagHeaders (etag : Option String) (hs : HeadersL) : HeadersL :=
  match etag with
  | some e => setH (setH hs "If-None-Match" e) "Accept" "application/json;"
  | none => hs

/-- The complete outgoing-header pipeline shared by `getRemoteMetadataNext`
(proxy.ts:547-554) and `fetchTarballNext` (proxy.ts:728-735). -/
def buildRequestHeaders (cfg : UplinkCfg) (env : Env) (o : ReqOptions) : Except UErr HeadersL :=
  match getHeadersNext cfg env o.headers with
  | .error e => .error e
  | .ok hs =>
    .ok (clampEtagHeaders o.etag
      (applyUplinkHeaders cfg.configHeaders (addProxyHeadersNext cfg hs o.remoteAddress)))

/-! ## Metadata fetcher (`getRemoteMetadataNext`) -/

/-- The final response as delivered by the HTTP layer (after any transparent
redirect following): status code, optional `ETag` header, decoded JSON body. -/
structure MetaResponse where
  statusCode : Nat
  etag : Option String
  body : Json

/-- Interface of the `got` client as the source relies on it: with
`throwHttpErrors` (default) and `followRedirect` (default), a response
resolves when its status is 2xx or 304, and every other status is raised as
an HTTP error carrying code `ERR_NON_2XX_3XX_RESPONSE` — the code matched in
the catch block (proxy.ts:662). -/
def gotResolves (status : Nat) : Bool :=
  decide ((200 ≤ status ∧ status < 300) ∨ status = 304)

/-- Status classification of `getRemoteMetadataNext` (proxy.ts:636-678):
a resolved 304 fails with the not-modified error; a resolved 2xx returns the
body with the `ETag` header; a raised status error is mapped to the uplink
not-found error on 404, and otherwise to the bad-status-code error carrying
the numeric status (`remoteStatus`); the final rethrow of a raised error
whose status were 2xx is unreachable. -/
def classifyMetadataResponse (r : MetaResponse) : Except UErr (Json × Option String) :=
  if gotResolves r.statusCode then
    if r.statusCode = 304 then .error .notModifiedNoData
    else .ok (r.body, r.etag)
  else
    if r.statusCode = 404 then .error .notFoundUplink
    else if ¬(200 ≤ r.statusCode ∧ r.statusCode < 300) then .error (.badStatusCode r.statusCode)
    else .error (.transport "HTTPError")

/-- Outcome of one public operation: whether a network request was issued,
and the value or error produced. -/
structure Attempt (α : Type) where
  issuedRequest : Bool
  result : Except UErr α

/-- From `getRemoteMetadataNext` (proxy.ts:537-543 and onwards): the offline
preflight fails with the uplink-offline error before any network activity;
otherwise the request is issued and the response classified. -/
def getRemoteMetadataAttempt (lim : UplinkLimits) (st : HealthState) (now : Int)
    (r : MetaResponse) : Attempt (Json × Option String) :=
  if ifRequestFailure lim st now then ⟨false, .error .uplinkOffline⟩
  else ⟨true, classifyMetadataResponse r⟩

/-! ## Tarball fetcher (`fetchTarball`, the public `IProxy` method) -/

/-- How the upstream response stream terminates: a clean `end`, or an error
raised while the body was being transferred. -/
inductive UpstreamTerm where
  | normalEnd
  | errored (message : String)
deriving DecidableEq

/-- Behaviour of the upstream request stream: a transport error before any
response, or a response with status, optional numeric `Content-Length`
header, the sizes of the delivered body chunks, and a terminal event. -/
inductive Upstream where
  | earlyError (message : String)
  | response (status : Nat) (contentLength : Option Nat) (chunkSizes : List Nat)
      (term : UpstreamTerm)
deriving DecidableEq

/-- The `response` handler of `fetchTarball` (proxy.ts:820-836): a 404 emits
the not-file error, any other non-2xx status emits the bad-status-code
internal error; on success no error is emitted and the body is piped. -/
def tarballStatusErrors (status : Nat) : List UErr :=
  if status = 404 then [.notFileUplink]
  else if ¬(200 ≤ status ∧ status < 300) then [.badStatusCode status]
  else []

/-- `expected_length` is recorded only when the `response` handler reaches the
success branch (proxy.ts:830-833); the 404 and bad-status branches return
early. -/
def tarballExpectedLength (status : Nat) (clen : Option Nat) : Option Nat :=
  if status = 404 then none
  else if ¬(200 ≤ status ∧ status < 300) then none
  else clen

/-- All error events emitted on the `ReadTarball` stream returned by
`fetchTarball` (proxy.ts:806-853), as a function of the upstream behaviour:
status-classification errors from the `response` handler, every upstream
`error` propagated by the `error` handler (proxy.ts:838-840), and the
content-mismatch check of the `end` handler (proxy.ts:844-851) comparing the
accumulated byte count with the recorded `expected_length`. -/
def fetchTarballEmits : Upstream → List UErr
  | .earlyError m => [.transport m]
  | .response status clen chunks term =>
    tarballStatusErrors status ++
    (match term with
     | .errored m => [.transport m]
     | .normalEnd =>
       match tarballExpectedLength status clen with
       | some n => if chunks.sum ≠ n then [.contentMismatch] else []
       | none => [])

/-- Outcome of a stream-returning operation: whether the network was hit and
the error events emitted on the returned stream. -/
structure StreamAttempt where
  issuedRequest : Bool
  emittedErrors : List UErr
deriving DecidableEq

/-- `fetchTarball` goes through the deprecated `request` helper whose
preflight (proxy.ts:176-189) returns, when `_statusCheck()` is false (the
uplink is offline), a synthetic stream that only emits the uplink-offline
error — which the `error` handler of `fetchTarball` forwards to the returned
stream; no network request is issued in that case. -/
def fetchTarballAttempt (lim : UplinkLimits) (st : HealthState) (now : Int)
    (u : Upstream) : StreamAttempt :=
  if ifRequestFailure lim st now then ⟨false, [.uplinkOffline]⟩
  else ⟨true, fetchTarballEmits u⟩

/-! ## Search streamer (`search`) -/

/-- The search response: HTTP status and decoded JSON body. -/
structure SearchResponse where
  status : Nat
  body : Json

/-- Interface of `JSONStream.parse('objects')` (proxy.ts:888): the path has no
wildcard, so the parser emits one data event holding the entire value found
at the top-level key `objects` (when present), and nothing else — the `date`
and `total` fields are never emitted. -/
def jsonStreamParseObjects (body : Json) : List Json :=
  match body.lookup "objects" with
  | some v => [v]
  | none => []

/-- From `search` (proxy.ts:878-889): a status of at least 400 throws the
internal bad-status-code error; otherwise the returned object stream carries
the chunks produced by `JSONStream.parse('objects')`. -/
def searchResult (r : SearchResponse) : Except UErr (List Json) :=
  if 400 ≤ r.status then .error (.badStatusCode r.status)
  else .ok (jsonStreamParseObjects r.body)

/-- From `search` (proxy.ts:860-897): the method consults no health state and
performs no offline preflight — the fetch is always issued. -/
def searchAttempt (_lim : UplinkLimits) (_st : HealthState) (_now : Int)
    (r : SearchResponse) : Attempt (List Json) :=
  ⟨true, searchResult r⟩

/-- From `search` (proxy.ts:869-877): the undici fetch options carry only the
method and the abort signal; the headers argument is commented out, so the
outgoing search request has no custom headers at all. -/
def searchRequestHeaders : HeadersL := []

/-- Greedy left-to-right application of the regex replace
`.replace(/([^:]\/)\/+/g, '$1')` (proxy.ts:867): a non-colon character
followed by at least two slashes keeps the character and one slash and drops
the remaining run; scanning resumes after the dropped run.  The recursion is
made structural on a fuel argument; the list length bounds the number of
scanning steps, so the fuel never runs out when started at the length. -/
def collapseCharsGo : Nat → List Char → List Char
  | 0, l => l
  | _ + 1, [] => []
  | _ + 1, [c] => [c]
  | fuel + 1, c :: d :: rest =>
    if c ≠ ':' ∧ d = '/' ∧ rest.head? = some '/' then
      c :: d :: collapseCharsGo fuel (rest.dropWhile (fun x => x == '/'))
    else c :: collapseCharsGo fuel (d :: rest)

/-- Duplicate-slash collapsing on strings. -/
def collapseDupSlashes (s : String) : String :=
  String.mk (collapseCharsGo s.data.length s.data)

/-- The search request URI (proxy.ts:865-867): the href of the base URL
concatenated with the caller path, duplicate slashes collapsed. -/
def searchURI (baseHref url : String) : String :=
  collapseDupSlashes (baseHref ++ url)

/-! ## Package-name encoding (`encode`) -/

/-- The characters `encodeURIComponent` leaves unescaped, as byte values:
ASCII letters, digits, and `- _ . ! ~ * ' ( )`. -/
def isUnreservedByte (b : Nat) : Bool :=
  decide ((65 ≤ b ∧ b ≤ 90) ∨ (97 ≤ b ∧ b ≤ 122) ∨ (48 ≤ b ∧ b ≤ 57) ∨
    b = 45 ∨ b = 95 ∨ b = 46 ∨ b = 33 ∨ b = 126 ∨ b = 42 ∨ b = 39 ∨ b = 40 ∨ b = 41)

/-- Upper-case hex digit of a value below 16, as a byte value. -/
def hexDigitCode (n : Nat) : Nat :=
  if n < 10 then 48 + n else 55 + n

/-- Percent-encoding of one byte: unreserved bytes stand for themselves,
every other byte becomes `%` (byte 37) plus two upper-case hex digits. -/
def encodeByte (b : Nat) : List Nat :=
  if isUnreservedByte b then [b] else [37, hexDigitCode (b / 16), hexDigitCode (b % 16)]

/-- `encodeURIComponent` over the UTF-8 bytes of the input. -/
def encodeURIComponentBytes : List Nat → List Nat
  | [] => []
  | b :: bs => encodeByte b ++ encodeURIComponentBytes bs

/-- The anchored, non-global replace `.replace(/^%40/, '@')`: a leading `%40`
(bytes 37, 52, 48) is rewritten to a literal `@` (byte 64). -/
def replaceLeadingPct40 : List Nat → List Nat
  | 37 :: 52 :: 48 :: rest => 64 :: rest
  | cs => cs

/-- From `encode` (proxy.ts:40-42):
`encodeURIComponent(thing).replace(/^%40/, '@')`. -/
def encode (bs : List Nat) : List Nat :=
  replaceLeadingPct40 (encodeURIComponentBytes bs)

/-- Value of a hex-digit byte, accepting both cases (`decodeURIComponent`). -/
def hexValCode (c : Nat) : Option Nat :=
  if 48 ≤ c ∧ c ≤ 57 then some (c - 48)
  else if 65 ≤ c ∧ c ≤ 70 then some (c - 65 + 10)
  else if 97 ≤ c ∧ c ≤ 102 then some (c - 97 + 10)
  else none

/-- Percent-decoding to bytes: `%` followed by two hex digits yields the
encoded byte, a malformed escape fails, any other byte stands for itself. -/
def percentDecode : List Nat → Option (List Nat)
  | [] => some []
  | c :: rest =>
    if c = 37 then
      match rest with
      | h :: l :: rest2 =>
        match hexValCode h, hexValCode l with
        | some hv, some lv => (percentDecode rest2).map (fun bs => (16 * hv + lv) :: bs)
        | _, _ => none
      | _ => none
    else (percentDecode rest).map (fun bs => c :: bs)

/-- UTF-8 bytes of a string (code points of the ASCII strings used here). -/
def strBytes (s : String) : List Nat :=
  s.data.map Char.toNat

/-! ## Helper lemmas on the header map -/

theorem getH_cons (p : String × String) (l : HeadersL) (k : String) :
    getH (p :: l) k = if p.1 == k then some p.2 else getH l k := by
  simp only [getH, List.find?]
  by_cases hp : (p.1 == k) = true <;> simp [hp]

theorem setH_cons (p : String × String) (rest : HeadersL) (k v : String) :
    setH (p :: rest) k v =
      if p.1 == k then (k, v) :: rest.map (fun q => if q.1 == k then (k, v) else q)
      else p :: setH rest k v := by
  by_cases hp : (p.1 == k) = true
  · have hpk : p.1 = k := by simpa using hp
    simp [setH, hp, hpk, List.any_cons]
  · have hpk : ¬p.1 = k := by simpa using hp
    by_cases hr : rest.any (fun q => q.1 == k) = true
    · simp [setH, hp, hpk, hr, List.any_cons]
    · simp [setH, hp, hpk, hr, List.any_cons]

theorem getH_overwrite_map (rest : HeadersL) (k k' v : String) (h : k' ≠ k) :
    getH (rest.map (fun q => if q.1 == k then (k, v) else q)) k' = getH rest k' := by
  induction rest with
  | nil => rfl
  | cons q t ih =>
    simp only [List.map_cons]
    by_cases hq : (q.1 == k) = true
    · have hqk : q.1 = k := by simpa using hq
      rw [if_pos hq, getH_cons, getH_cons]
      have h1 : (k == k') = false := by simp [(Ne.symm h)]
      have h2 : (q.1 == k') = false := by simp [hqk, Ne.symm h]
      rw [h1, h2]
      · exact ih
    · rw [if_neg hq, getH_cons, getH_cons]
      by_cases hq' : (q.1 == k') = true
      · simp [hq']
      · simp only [Bool.not_eq_true] at hq'
        rw [hq']
        simpa using ih

theorem getH_setH_self (hs : HeadersL) (k v : String) : getH (setH hs k v) k = some v := by
  induction hs with
  | nil => simp [setH, getH, List.find?]
  | cons p rest ih =>
    rw [setH_cons]
    by_cases hp : (p.1 == k) = true
    · rw [if_pos hp, getH_cons]
      simp
    · rw [if_neg hp, getH_cons]
      simp only [Bool.not_eq_true] at hp
      rw [hp]
      · exact ih

theorem getH_setH_ne (hs : HeadersL) (k k' v : String) (h : k' ≠ k) :
    getH (setH hs k v) k' = getH hs k' := by
  induction hs with
  | nil =>
    simp only [setH, List.any_nil, if_neg Bool.false_ne_true, List.nil_append]
    rw [getH_cons]
    simp [Ne.symm h, getH]
  | cons p rest ih =>
    rw [setH_cons]
    by_cases hp : (p.1 == k) = true
    · have hpk : p.1 = k := by simpa using hp
      rw [if_pos hp, getH_cons, getH_cons]
      have h1 : (k == k') = false := by simp [Ne.symm h]
      have h2 : (p.1 == k') = false := by simp [hpk, Ne.symm h]
      rw [h1, h2]
      · exact getH_overwrite_map rest k k' v h
    · rw [if_neg hp, getH_cons, getH_cons]
      by_cases hp' : (p.1 == k') = true
      · simp [hp']
      · simp only [Bool.not_eq_true] at hp'
        rw [hp']
        simpa using ih

theorem hasHeaderCI_setH (hs : HeadersL) (k v n : String) :
    hasHeaderCI (setH hs k v) n = (hasHeaderCI hs n || (lowerStr k == lowerStr n)) := by
  induction hs with
  | nil => simp [setH, hasHeaderCI]
  | cons p rest ih =>
    rw [setH_cons]
    by_cases hp : (p.1 == k) = true
    · have hpk : p.1 = k := by simpa using hp
      have hmap : (rest.map (fun q => if q.1 == k then (k, v) else q)).any
          (fun p => lowerStr p.1 == lowerStr n) = rest.any (fun p => lowerStr p.1 == lowerStr n) := by
        rw [List.any_map]
        congr 1
        funext q
        by_cases hq : (q.1 == k) = true
        · have hqk : q.1 = k := by simpa using hq
          simp [Function.comp, hq, hqk]
        · simp [Function.comp, hq]
      rw [if_pos hp]
      simp only [hasHeaderCI, List.any_cons, hmap, hpk]
      cases hk : (lowerStr k == lowerStr n) <;>
        cases hr : rest.any (fun p => lowerStr p.1 == lowerStr n) <;> simp [hk, hr]
    · rw [if_neg hp]
      simp only [hasHeaderCI, List.any_cons] at *
      rw [ih]
      cases h1 : (lowerStr p.1 == lowerStr n) <;>
        cases h2 : rest.any (fun p => lowerStr p.1 == lowerStr n) <;>
          cases h3 : (lowerStr k == lowerStr n) <;> simp [h1, h2, h3]

theorem hasHeaderCI_orSet (hs : HeadersL) (k v n : String)
    (hk : (lowerStr k == lowerStr n) = false) :
    hasHeaderCI (orSet hs k v) n = hasHeaderCI hs n := by
  unfold orSet
  split
  · rfl
  · rw [hasHeaderCI_setH, hk, Bool.or_false]

theorem hasHeaderCI_applyUplink_mono (ch : List (String × String)) (hs : HeadersL) (n : String)
    (h : hasHeaderCI hs n = true) : hasHeaderCI (applyUplinkHeaders ch hs) n = true := by
  induction ch generalizing hs with
  | nil => exact h
  | cons kv t ih =>
    simp only [applyUplinkHeaders, List.foldl_cons] at *
    exact ih _ (by rw [hasHeaderCI_setH, h, Bool.true_or])

theorem hasHeaderCI_applyUplink_none (ch : List (String × String)) (hs : HeadersL) (n : String)
    (h : hasHeaderCI hs n = false)
    (hch : ∀ kv ∈ ch, (lowerStr kv.1 == lowerStr n) = false) :
    hasHeaderCI (applyUplinkHeaders ch hs) n = false := by
  induction ch generalizing hs with
  | nil => exact h
  | cons kv t ih =>
    simp only [applyUplinkHeaders, List.foldl_cons] at *
    refine ih _ ?_ (fun q hq => hch q (List.mem_cons_of_mem kv hq))
    rw [hasHeaderCI_setH, h, Bool.false_or]
    exact hch kv (List.mem_cons_self kv t)

theorem getH_applyUplink_ne (ch : List (String × String)) (hs : HeadersL) (k : String)
    (hch : ∀ kv ∈ ch, kv.1 ≠ k) :
    getH (applyUplinkHeaders ch hs) k = getH hs k := by
  induction ch generalizing hs with
  | nil => rfl
  | cons kv t ih =>
    simp only [applyUplinkHeaders, List.foldl_cons] at *
    rw [ih _ (fun q hq => hch q (List.mem_cons_of_mem kv hq))]
    exact getH_setH_ne hs kv.1 k kv.2 (fun e => hch kv (List.mem_cons_self kv t) e.symm)

theorem getH_addProxyHeadersNext_via (cfg : UplinkCfg) (hs : HeadersL) (ra : Option String) :
    getH (addProxyHeadersNext cfg hs ra) "via" =
      some (priorThen (getH hs "via") ++ ("1.1 " ++ cfg.serverId ++ " (Verdaccio)")) := by
  unfold addProxyHeadersNext
  by_cases ha : cfg.hasAgent
  · simp only [if_pos ha]
    exact getH_setH_self _ _ _
  · simp only [if_neg ha]
    rw [getH_setH_self]
    rw [getH_setH_ne hs "X-Forwarded-For" "via" _ (by decide)]

theorem setAuthNext_ok_shape (a : Option AuthSetting) (env : Env) (hs hs' : HeadersL)
    (h : setAuthNext a env hs = .ok hs') :
    hs' = hs ∨ ∃ val, hs' = setH hs "Authorization" val := by
  unfold setAuthNext at h
  split at h
  · cases h
    exact Or.inl rfl
  · split at h
    · cases h
      exact Or.inl rfl
    · cases h
    · split at h
      · cases h
      · cases h
      · unfold setHeaderAuthorization at h
        split at h
        · cases h
        · cases h
          exact Or.inr ⟨_, rfl⟩

theorem hasHeaderCI_getHeadersNext (cfg : UplinkCfg) (env : Env) (headers hs' : HeadersL)
    (n : String) (hok : getHeadersNext cfg env headers = .ok hs')
    (hx : hasHeaderCI headers n = false)
    (h1 : (lowerStr "Accept" == lowerStr n) = false)
    (h2 : (lowerStr "Accept-Encoding" == lowerStr n) = false)
    (h3 : (lowerStr "User-Agent" == lowerStr n) = false)
    (h4 : (lowerStr "Authorization" == lowerStr n) = false) :
    hasHeaderCI hs' n = false := by
  simp only [getHeadersNext] at hok
  have hb : hasHeaderCI (orSet (orSet (orSet headers "Accept" "application/json;")
      "Accept-Encoding" "gzip") "User-Agent" ("npm (" ++ cfg.userAgent ++ ")")) n = false := by
    rw [hasHeaderCI_orSet _ _ _ _ h3, hasHeaderCI_orSet _ _ _ _ h2,
      hasHeaderCI_orSet _ _ _ _ h1]
    exact hx
  rcases setAuthNext_ok_shape _ _ _ _ hok with he | ⟨val, he⟩
  · subst he
    exact hb
  · subst he
    rw [hasHeaderCI_setH, hb, h4]
    rfl

theorem hasHeaderCI_addProxy_noagent (cfg : UplinkCfg) (hs : HeadersL) (ra : Option String)
    (ha : cfg.hasAgent = false) :
    hasHeaderCI (addProxyHeadersNext cfg hs ra) "X-Forwarded-For" = true := by
  unfold addProxyHeadersNext
  rw [if_neg (by simp [ha])]
  rw [hasHeaderCI_setH, hasHeaderCI_setH]
  simp

theorem hasHeaderCI_addProxy_agent (cfg : UplinkCfg) (hs : HeadersL) (ra : Option String)
    (n : String) (ha : cfg.hasAgent = true)
    (hn : (lowerStr "via" == lowerStr n) = false) :
    hasHeaderCI (addProxyHeadersNext cfg hs ra) n = hasHeaderCI hs n := by
  unfold addProxyHeadersNext
  rw [if_pos (by simp [ha])]
  rw [hasHeaderCI_setH, hn, Bool.or_false]

theorem hasHeaderCI_clampEtag (etag : Option String) (hs : HeadersL) (n : String)
    (h1 : (lowerStr "If-None-Match" == lowerStr n) = false)
    (h2 : (lowerStr "Accept" == lowerStr n) = false) :
    hasHeaderCI (clampEtagHeaders etag hs) n = hasHeaderCI hs n := by
  cases etag with
  | none => rfl
  | some e =>
    unfold clampEtagHeaders
    rw [hasHeaderCI_setH, hasHeaderCI_setH, h1, h2, Bool.or_false, Bool.or_false]

theorem getH_clampEtag_ne (etag : Option String) (hs : HeadersL) (k : String)
    (h1 : k ≠ "If-None-Match") (h2 : k ≠ "Accept") :
    getH (clampEtagHeaders etag hs) k = getH hs k := by
  cases etag with
  | none => rfl
  | some e =>
    unfold clampEtagHeaders
    rw [getH_setH_ne _ _ _ _ h2, getH_setH_ne _ _ _ _ h1]

theorem getH_addProxy_noagent_xff (cfg : UplinkCfg) (hs : HeadersL) (ra : Option String)
    (ha : cfg.hasAgent = false) :
    getH (addProxyHeadersNext cfg hs ra) "X-Forwarded-For" =
      some (priorThen (getH hs "x-forwarded-for") ++ jsStr ra) := by
  unfold addProxyHeadersNext
  rw [if_neg (by simp [ha])]
  rw [getH_setH_ne _ _ _ _ (by decide)]
  exact getH_setH_self _ _ _

/-! ## Claim C1 — offline preflight -/

/-- C1 (amended): with `last_request_time` set, the uplink is offline exactly
when `failed_requests ≥ max_fails` and `|now − last_request_time| <
fail_timeout`; when offline, the metadata fetch and the tarball fetch fail
immediately with `UplinkOffline` and issue no network request, and otherwise
they issue the request — but the search operation performs no preflight and
always issues its request, offline or not. -/
theorem offline_preflight_behaviour
    (lim : UplinkLimits) (st : HealthState) (now t : Int)
    (r : MetaResponse) (u : Upstream) (sr : SearchResponse)
    (hlast : st.last_request_time = some t) :
    (ifRequestFailure lim st now = true ↔
      (lim.max_fails ≤ st.failed_requests ∧ (now - t).natAbs < lim.fail_timeout)) ∧
    (ifRequestFailure lim st now = true →
      getRemoteMetadataAttempt lim st now r = ⟨false, .error .uplinkOffline⟩ ∧
      fetchTarballAttempt lim st now u = ⟨false, [.uplinkOffline]⟩) ∧
    (ifRequestFailure lim st now = false →
      (getRemoteMetadataAttempt lim st now r).issuedRequest = true ∧
      (fetchTarballAttempt lim st now u).issuedRequest = true) ∧
    (searchAttempt lim st now sr).issuedRequest = true := by
  refine ⟨?_, ?_, ?_, rfl⟩
  · simp [ifRequestFailure, hlast]
  · intro h
    simp [getRemoteMetadataAttempt, fetchTarballAttempt, h]
  · intro h
    simp [getRemoteMetadataAttempt, fetchTarballAttempt, h]

/-- Witness for `offline_preflight_behaviour`: concrete offline state
(2 failures with `max_fails = 2`, 5 ms after the last request with
`fail_timeout = 1000`). -/
theorem offline_preflight_behaviour_witness :
    getRemoteMetadataAttempt ⟨2, 1000⟩ ⟨2, some 0⟩ 5 ⟨200, none, Json.null⟩ =
      ⟨false, .error .uplinkOffline⟩ ∧
    fetchTarballAttempt ⟨2, 1000⟩ ⟨2, some 0⟩ 5 (.earlyError "e") = ⟨false, [.uplinkOffline]⟩ :=
  (offline_preflight_behaviour ⟨2, 1000⟩ ⟨2, some 0⟩ 5 0 ⟨200, none, Json.null⟩
    (.earlyError "e") ⟨200, Json.null⟩ rfl).2.1 (by decide)

/-- C1 counterexample: in the same concrete offline state, `search` still
issues its network request and does not fail with `UplinkOffline` — the claim
quantifies over all three public operations, but `search` (proxy.ts:860-897)
has no preflight at all. -/
theorem search_ignores_offline_counterexample :
    ifRequestFailure ⟨2, 1000⟩ ⟨2, some 0⟩ 5 = true ∧
    (searchAttempt ⟨2, 1000⟩ ⟨2, some 0⟩ 5 ⟨200, Json.obj []⟩).issuedRequest = true ∧
    (searchAttempt ⟨2, 1000⟩ ⟨2, some 0⟩ 5 ⟨200, Json.obj []⟩).result ≠
      Except.error UErr.uplinkOffline := by
  refine ⟨by decide, rfl, ?_⟩
  simp [searchAttempt, searchResult, jsonStreamParseObjects, Json.lookup]

/-! ## Claim C2 — metadata status classification -/

/-- C2: `getRemoteMetadataNext` classifies the final response status: 304
fails with `NotModifiedNoData`, 404 fails with `NotFoundUplink`, any other
non-2xx status fails with `BadStatusCode` carrying the numeric status, and a
2xx returns the decoded body together with the `ETag` header value. -/
theorem metadata_status_classification (r : MetaResponse) :
    (r.statusCode = 304 → classifyMetadataResponse r = .error .notModifiedNoData) ∧
    (r.statusCode = 404 → classifyMetadataResponse r = .error .notFoundUplink) ∧
    (¬(200 ≤ r.statusCode ∧ r.statusCode < 300) → r.statusCode ≠ 304 → r.statusCode ≠ 404 →
      classifyMetadataResponse r = .error (.badStatusCode r.statusCode)) ∧
    (200 ≤ r.statusCode ∧ r.statusCode < 300 →
      classifyMetadataResponse r = .ok (r.body, r.etag)) := by
  refine ⟨?_, ?_, ?_, ?_⟩
  · intro h
    simp [classifyMetadataResponse, gotResolves, h]
  · intro h
    simp [classifyMetadataResponse, gotResolves, h]
  · intro h1 h2 h3
    have hres : gotResolves r.statusCode = false := by
      simp only [gotResolves, decide_eq_false_iff_not]
      rintro (hh | hh)
      · exact h1 hh
      · exact h2 hh
    simp [classifyMetadataResponse, hres, h1, h3]
  · intro h
    have hres : gotResolves r.statusCode = true := by
      simp only [gotResolves, decide_eq_true_eq]
      exact Or.inl h
    have h304 : r.statusCode ≠ 304 := by omega
    simp [classifyMetadataResponse, hres, h304]

/-- Witness for `metadata_status_classification` at statuses 304 and 500. -/
theorem metadata_status_classification_witness :
    classifyMetadataResponse ⟨304, none, Json.null⟩ = .error .notModifiedNoData ∧
    classifyMetadataResponse ⟨500, none, Json.null⟩ = .error (.badStatusCode 500) :=
  ⟨(metadata_status_classification ⟨304, none, Json.null⟩).1 rfl,
   (metadata_status_classification ⟨500, none, Json.null⟩).2.2.1 (by decide) (by decide) (by decide)⟩

/-! ## Claim C3 — health tracker transitions -/

/-- C3: every issued request stamps `last_request_time`; a 2xx response
resets the failure counter to 0 and logs the back-online message exactly when
the counter was at least `max_fails` (and leaves the state silent otherwise);
each retry attempt sets the counter to the retry count and logs the offline
message whenever the counter has reached `max_fails` — in particular when it
first reaches it. -/
theorem health_tracker_transitions (lim : UplinkLimits) (st : HealthState) (now : Int)
    (status : Nat) (count : Option Nat) :
    ((onRequestIssued st now).last_request_time = some now) ∧
    (200 ≤ status → status < 300 → lim.max_fails ≤ st.failed_requests →
      afterResponseHook lim st status = ({ st with failed_requests := 0 }, [LogMsg.backOnline])) ∧
    (200 ≤ status → status < 300 → st.failed_requests < lim.max_fails →
      afterResponseHook lim st status = (st, [])) ∧
    ((beforeRetryHook lim st count).1.failed_requests = count.getD 0) ∧
    (lim.max_fails ≤ count.getD 0 →
      LogMsg.nowOffline ∈ (beforeRetryHook lim st count).2) := by
  refine ⟨rfl, ?_, ?_, rfl, ?_⟩
  · intro h1 h2 h3
    rw [afterResponseHook, if_pos ⟨h1, h2⟩, if_pos h3]
  · intro h1 h2 h3
    rw [afterResponseHook, if_pos ⟨h1, h2⟩, if_neg (by omega)]
  · intro h
    simp [beforeRetryHook, h]

/-- Witness for `health_tracker_transitions`: a 2xx after 3 failures with
`max_fails = 2` resets the counter and logs back-online; a retry with count 2
logs the offline message. -/
theorem health_tracker_transitions_witness :
    afterResponseHook ⟨2, 500⟩ ⟨3, some 7⟩ 200 = (⟨0, some 7⟩, [LogMsg.backOnline]) ∧
    LogMsg.nowOffline ∈ (beforeRetryHook ⟨2, 500⟩ ⟨0, none⟩ (some 2)).2 :=
  ⟨(health_tracker_transitions ⟨2, 500⟩ ⟨3, some 7⟩ 9 200 (some 2)).2.1
      (by decide) (by decide) (by decide),
   (health_tracker_transitions ⟨2, 500⟩ ⟨0, none⟩ 9 200 (some 2)).2.2.2.2 (by decide)⟩

/-! ## Claim C8 — tarball stream errors -/

/-- C8 (amended): every error emitted by the stream returned by
`fetchTarball` is one of: `NotFileUplink` for a 404 response, `BadStatusCode`
for another non-2xx response, a propagated transport error, or
`ContentMismatch` when the byte count at a clean end differs from the
advertised `Content-Length`; the stream emits at most one error per scenario
— except that a non-2xx response whose body transfer later fails emits both
the status error and the propagated transport error, so the error is not
always emitted exactly once. -/
theorem tarball_stream_errors (status : Nat) (clen : Option Nat) (chunks : List Nat)
    (m : String) :
    (fetchTarballEmits (.earlyError m) = [.transport m]) ∧
    (200 ≤ status → status < 300 →
      fetchTarballEmits (.response status clen chunks .normalEnd) =
        (match clen with
         | some n => if chunks.sum ≠ n then [UErr.contentMismatch] else []
         | none => [])) ∧
    (200 ≤ status → status < 300 →
      fetchTarballEmits (.response status clen chunks (.errored m)) = [.transport m]) ∧
    (fetchTarballEmits (.response 404 clen chunks .normalEnd) = [.notFileUplink]) ∧
    (¬(200 ≤ status ∧ status < 300) → status ≠ 404 →
      fetchTarballEmits (.response status clen chunks .normalEnd) =
        [.badStatusCode status]) ∧
    (¬(200 ≤ status ∧ status < 300) → status ≠ 404 →
      fetchTarballEmits (.response status clen chunks (.errored m)) =
        [.badStatusCode status, .transport m]) ∧
    (fetchTarballEmits (.response 404 clen chunks (.errored m)) =
      [.notFileUplink, .transport m]) := by
  refine ⟨rfl, ?_, ?_, ?_, ?_, ?_, ?_⟩
  · intro h1 h2
    have h404 : status ≠ 404 := by omega
    simp [fetchTarballEmits, tarballStatusErrors, tarballExpectedLength, h404, h1, h2]
  · intro h1 h2
    have h404 : status ≠ 404 := by omega
    simp [fetchTarballEmits, tarballStatusErrors, h404, h1, h2]
  · simp [fetchTarballEmits, tarballStatusErrors, tarballExpectedLength]
  · intro h1 h2
    simp [fetchTarballEmits, tarballStatusErrors, tarballExpectedLength, h1, h2]
  · intro h1 h2
    simp [fetchTarballEmits, tarballStatusErrors, h1, h2]
  · simp [fetchTarballEmits, tarballStatusErrors]

/-- Witness for `tarball_stream_errors`: a 200 response advertising 100 bytes
but delivering 80 emits exactly the content-mismatch error. -/
theorem tarball_stream_errors_witness :
    fetchTarballEmits (.response 200 (some 100) [80] .normalEnd) = [UErr.contentMismatch] := by
  have h := (tarball_stream_errors 200 (some 100) [80] "m").2.1 (by decide) (by decide)
  simpa using h

/-- C8 counterexample: a 404 response whose body transfer then dies with a
transport error makes the returned stream emit two errors — the claim's
"exactly once" fails on this input. -/
theorem tarball_double_error_counterexample :
    fetchTarballEmits (.response 404 none [] (.errored "socket hang up")) =
      [.notFileUplink, .transport "socket hang up"] ∧
    (fetchTarballEmits (.response 404 none [] (.errored "socket hang up"))).length = 2 := by
  constructor
  · rfl
  · rfl

/-! ## Claim C4 — Via header chain -/

/-- C4 (amended): every request built through `addProxyHeadersNext` — i.e.
the metadata and tarball fetches — carries a `via` header ending with
`1.1 <server_id> (Verdaccio)`, with a truthy incoming `via` value preserved
at the front separated by `", "`; the search request, however, is sent with
no custom headers at all, so it carries no `Via`. -/
theorem via_header_contract (cfg : UplinkCfg) (hs : HeadersL) (ra : Option String) :
    (∃ pre : String,
      getH (addProxyHeadersNext cfg hs ra) "via" =
        some (pre ++ ("1.1 " ++ cfg.serverId ++ " (Verdaccio)")) ∧
      (truthy (getH hs "via") = true → pre = (getH hs "via").getD "" ++ ", ") ∧
      (truthy (getH hs "via") = false → pre = "")) ∧
    hasHeaderCI searchRequestHeaders "via" = false := by
  refine ⟨?_, rfl⟩
  refine ⟨priorThen (getH hs "via"), getH_addProxyHeadersNext_via cfg hs ra, ?_, ?_⟩
  · intro h
    simp [priorThen, h]
  · intro h
    simp [priorThen, h]

/-- Witness for `via_header_contract`: a prior `via` value is preserved in
front of the appended `1.1 srv (Verdaccio)`. -/
theorem via_header_contract_witness :
    getH (addProxyHeadersNext ⟨false, "srv", "ua", none, []⟩ [("via", "1.1 up (X)")] none)
      "via" = some "1.1 up (X), 1.1 srv (Verdaccio)" := by
  obtain ⟨pre, h1, h2, _⟩ :=
    (via_header_contract ⟨false, "srv", "ua", none, []⟩ [("via", "1.1 up (X)")] none).1
  rw [h1, h2 (by decide)]
  rfl

/-- C4 counterexample: the outgoing search request (proxy.ts:869-877) carries
no headers whatsoever — in particular no `Via` — refuting the claim that
every outgoing request carries one. -/
theorem search_no_via_counterexample :
    searchRequestHeaders = [] ∧ getH searchRequestHeaders "via" = none ∧
    hasHeaderCI searchRequestHeaders "Via" = false :=
  ⟨rfl, rfl, rfl⟩

/-! ## Claim C9 — search contract -/

/-- C9 (amended): search issues GET to the base href concatenated with the
caller path, duplicate slashes collapsed except after the scheme separator;
any status of at least 400 fails with `BadStatusCode`; on success the
returned object stream emits a single chunk — the value of the response's
top-level `objects` property (the whole array), the `date` and `total`
fields being dropped — rather than the elements of that array one by one. -/
theorem search_contract (r : SearchResponse) (objectsVal : Json) :
    (searchURI "https://registry.example.com/" "/-/v1/search?text=foo" =
      "https://registry.example.com/-/v1/search?text=foo") ∧
    (400 ≤ r.status → searchResult r = .error (.badStatusCode r.status)) ∧
    (r.status < 400 → r.body.lookup "objects" = some objectsVal →
      searchResult r = .ok [objectsVal]) ∧
    (r.status < 400 → r.body.lookup "objects" = none →
      searchResult r = .ok []) := by
  refine ⟨by decide, ?_, ?_, ?_⟩
  · intro h
    rw [searchResult, if_pos h]
  · intro h1 h2
    rw [searchResult, if_neg (by omega), jsonStreamParseObjects, h2]
  · intro h1 h2
    rw [searchResult, if_neg (by omega), jsonStreamParseObjects, h2]

/-- Witness for `search_contract`: a 500 status fails with the bad-status
error; a 200 response without an `objects` key yields an empty stream. -/
theorem search_contract_witness :
    searchResult ⟨500, Json.null⟩ = .error (.badStatusCode 500) ∧
    searchResult ⟨200, Json.obj []⟩ = .ok [] :=
  ⟨(search_contract ⟨500, Json.null⟩ Json.null).2.1 (by decide),
   (search_contract ⟨200, Json.obj []⟩ Json.null).2.2.2 (by decide) rfl⟩

/-- C9 counterexample: for the body
`\x7b"total":2,"objects":[o1,o2],"date":"d"\x7d` the returned stream emits
one chunk holding the whole two-element array — not the two elements in
order, as the claim states (`JSONStream.parse('objects')` has no wildcard in
its path). -/
theorem search_stream_counterexample :
    searchResult ⟨200, Json.obj [("total", Json.num 2),
        ("objects", Json.arr [Json.obj [("a", Json.num 1)], Json.obj [("a", Json.num 2)]]),
        ("date", Json.str "d")]⟩ =
      .ok [Json.arr [Json.obj [("a", Json.num 1)], Json.obj [("a", Json.num 2)]]] ∧
    (jsonStreamParseObjects (Json.obj [("total", Json.num 2),
        ("objects", Json.arr [Json.obj [("a", Json.num 1)], Json.obj [("a", Json.num 2)]]),
        ("date", Json.str "d")])).length = 1 := by
  constructor
  · rw [searchResult, if_neg (by decide)]
    rw [jsonStreamParseObjects]
    rfl
  · rw [jsonStreamParseObjects]
    rfl

/-! ## Claim C5 — X-Forwarded-For versus explicit proxy -/

/-- C5 (amended): the forwarding stage adds `X-Forwarded-For` iff no explicit
proxy agent is configured: with no agent every built request carries it, and
with an agent the pipeline itself never adds it — the built request carries
`X-Forwarded-For` only if the caller's own headers or the uplink's
`config.headers` supply one (those are copied verbatim and may add it, so
the claim's universal "no outgoing request carries X-Forwarded-For" fails). -/
theorem forwarded_for_contract (cfg : UplinkCfg) (env : Env) (o : ReqOptions)
    (hs' : HeadersL) :
    (cfg.hasAgent = false → buildRequestHeaders cfg env o = .ok hs' →
      hasHeaderCI hs' "X-Forwarded-For" = true) ∧
    (cfg.hasAgent = true →
      hasHeaderCI o.headers "X-Forwarded-For" = false →
      (∀ kv ∈ cfg.configHeaders, (lowerStr kv.1 == lowerStr "X-Forwarded-For") = false) →
      buildRequestHeaders cfg env o = .ok hs' →
      hasHeaderCI hs' "X-Forwarded-For" = false) := by
  constructor
  · intro ha hok
    unfold buildRequestHeaders at hok
    cases hg : getHeadersNext cfg env o.headers with
    | error e =>
      rw [hg] at hok
      exact Except.noConfusion hok
    | ok hs1 =>
      rw [hg] at hok
      injection hok with hok
      subst hok
      rw [hasHeaderCI_clampEtag _ _ _ (by decide) (by decide)]
      exact hasHeaderCI_applyUplink_mono _ _ _ (hasHeaderCI_addProxy_noagent cfg hs1 _ ha)
  · intro ha hx hch hok
    unfold buildRequestHeaders at hok
    cases hg : getHeadersNext cfg env o.headers with
    | error e =>
      rw [hg] at hok
      exact Except.noConfusion hok
    | ok hs1 =>
      rw [hg] at hok
      injection hok with hok
      subst hok
      rw [hasHeaderCI_clampEtag _ _ _ (by decide) (by decide)]
      refine hasHeaderCI_applyUplink_none _ _ _ ?_ hch
      rw [hasHeaderCI_addProxy_agent _ _ _ _ ha (by decide)]
      exact hasHeaderCI_getHeadersNext cfg env o.headers hs1 _ hg hx
        (by decide) (by decide) (by decide) (by decide)

/-- Witness for `forwarded_for_contract`: with no agent the built headers
carry `X-Forwarded-For`; with an agent and clean inputs they do not. -/
theorem forwarded_for_contract_witness :
    hasHeaderCI [("Accept", "application/json;"), ("Accept-Encoding", "gzip"),
      ("User-Agent", "npm (u)"), ("X-Forwarded-For", "undefined"),
      ("via", "1.1 s (Verdaccio)")] "X-Forwarded-For" = true ∧
    hasHeaderCI [("Accept", "application/json;"), ("Accept-Encoding", "gzip"),
      ("User-Agent", "npm (u)"), ("via", "1.1 s (Verdaccio)")] "X-Forwarded-For" = false :=
  ⟨(forwarded_for_contract ⟨false, "s", "u", none, []⟩ (fun _ => none) ⟨[], none, none⟩ _).1
      rfl rfl,
   (forwarded_for_contract ⟨true, "s", "u", none, []⟩ (fun _ => none) ⟨[], none, none⟩ _).2
      rfl rfl (by simp) rfl⟩

/-- C5 counterexample: an uplink with an explicit proxy agent whose
`config.headers` contain an `X-Forwarded-For` entry produces an outgoing
request that carries `X-Forwarded-For` — the claim's universal ban under an
explicit proxy fails. -/
theorem proxy_forwarded_for_counterexample :
    buildRequestHeaders ⟨true, "srv", "ua", none, [("X-Forwarded-For", "10.0.0.1")]⟩
        (fun _ => none) ⟨[], none, none⟩ =
      .ok [("Accept", "application/json;"), ("Accept-Encoding", "gzip"),
        ("User-Agent", "npm (ua)"), ("via", "1.1 srv (Verdaccio)"),
        ("X-Forwarded-For", "10.0.0.1")] ∧
    hasHeaderCI [("Accept", "application/json;"), ("Accept-Encoding", "gzip"),
      ("User-Agent", "npm (ua)"), ("via", "1.1 srv (Verdaccio)"),
      ("X-Forwarded-For", "10.0.0.1")] "X-Forwarded-For" = true :=
  ⟨rfl, by decide⟩

/-! ## Claim C10 — missing remoteAddress stringified as `undefined` -/

/-- C10: when no explicit proxy agent is configured and the caller omits
`options.remoteAddress`, the header pipeline shared by
`getRemoteMetadataNext` and `fetchTarballNext` still attaches
`X-Forwarded-For`, and its value ends with the literal string `undefined`
(the JS stringification of the missing remote address); `config.headers` not
overriding the key, the value survives to the outgoing request. -/
theorem missing_remote_address_contract (cfg : UplinkCfg) (env : Env) (o : ReqOptions)
    (hs' : HeadersL)
    (ha : cfg.hasAgent = false) (hra : o.remoteAddress = none)
    (hch : ∀ kv ∈ cfg.configHeaders, kv.1 ≠ "X-Forwarded-For")
    (hok : buildRequestHeaders cfg env o = .ok hs') :
    ∃ pre, getH hs' "X-Forwarded-For" = some (pre ++ "undefined") := by
  unfold buildRequestHeaders at hok
  cases hg : getHeadersNext cfg env o.headers with
  | error e =>
    rw [hg] at hok
    exact Except.noConfusion hok
  | ok hs1 =>
    rw [hg] at hok
    injection hok with hok
    subst hok
    refine ⟨priorThen (getH hs1 "x-forwarded-for"), ?_⟩
    rw [getH_clampEtag_ne _ _ _ (by decide) (by decide)]
    rw [getH_applyUplink_ne _ _ _ hch]
    rw [getH_addProxy_noagent_xff cfg hs1 o.remoteAddress ha, hra]
    rfl

/-- Witness for `missing_remote_address_contract` on a fresh request with no
caller headers: the attached value is exactly `undefined`. -/
theorem missing_remote_address_contract_witness :
    ∃ pre, getH [("Accept", "application/json;"), ("Accept-Encoding", "gzip"),
      ("User-Agent", "npm (u)"), ("X-Forwarded-For", "undefined"),
      ("via", "1.1 s (Verdaccio)")] "X-Forwarded-For" = some (pre ++ "undefined") :=
  missing_remote_address_contract ⟨false, "s", "u", none, []⟩ (fun _ => none)
    ⟨[], none, none⟩ _ rfl rfl (by simp) rfl

/-! ## Claim C6 — auth token resolution and type handling -/

/-- C6 (amended): with auth configured as an object and no truthy
`Authorization` already present, the token resolves with precedence:
`auth.token` literal, then the environment variable named by a string
`auth.token_env`, then `NPM_TOKEN` when `auth.token_env` is `true`, then —
when `auth.token_env` is absent — `NPM_TOKEN` as a final fallback; a set
`auth.token_env` that is neither a string nor `true` fails with
`TokenRequired`, as does an unresolvable token.  A type whose lower-casing is
`basic` or `bearer` is accepted and the header value is
`upperFirst(type) ++ " " ++ token` (only the first character is upper-cased,
the rest of the configured spelling is preserved); any other type fails with
`AuthInvalid`. -/
theorem auth_header_contract (c : AuthConf) (env : Env) (hs : HeadersL) (tok nm : String)
    (hnoauth : truthy (getH hs "Authorization") = false) :
    ((lowerStr (authTypeOf c) = "basic" ∨ lowerStr (authTypeOf c) = "bearer") →
      ((c.token = some tok →
          setAuthNext (some (.obj c)) env hs =
            .ok (setH hs "Authorization" (upperFirst (authTypeOf c) ++ " " ++ tok))) ∧
       (c.token = none → c.token_env = some (.str nm) → env nm = some tok →
          setAuthNext (some (.obj c)) env hs =
            .ok (setH hs "Authorization" (upperFirst (authTypeOf c) ++ " " ++ tok))) ∧
       (c.token = none → c.token_env = some (.bool true) → env "NPM_TOKEN" = some tok →
          setAuthNext (some (.obj c)) env hs =
            .ok (setH hs "Authorization" (upperFirst (authTypeOf c) ++ " " ++ tok))) ∧
       (c.token = none → c.token_env = none → env "NPM_TOKEN" = some tok →
          setAuthNext (some (.obj c)) env hs =
            .ok (setH hs "Authorization" (upperFirst (authTypeOf c) ++ " " ++ tok))) ∧
       (c.token = none → c.token_env = some (.str nm) → env nm = none →
          setAuthNext (some (.obj c)) env hs = .error .tokenRequired) ∧
       (c.token = none → c.token_env = some (.bool false) →
          setAuthNext (some (.obj c)) env hs = .error .tokenRequired) ∧
       (c.token = none → c.token_env = none → env "NPM_TOKEN" = none →
          setAuthNext (some (.obj c)) env hs = .error .tokenRequired))) ∧
    (lowerStr (authTypeOf c) ≠ "basic" → lowerStr (authTypeOf c) ≠ "bearer" →
      c.token = some tok →
      setAuthNext (some (.obj c)) env hs = .error .authInvalid) := by
  have hcond : ¬((some (AuthSetting.obj c)).isNone = true ∨
      truthy (getH hs "Authorization") = true) := by
    simp [hnoauth]
  constructor
  · intro hty
    have hvalid : ¬(lowerStr (authTypeOf c) ≠ "bearer" ∧ lowerStr (authTypeOf c) ≠ "basic") := by
      rcases hty with h | h <;> simp [h]
    refine ⟨?_, ?_, ?_, ?_, ?_, ?_, ?_⟩
    · intro h1
      rw [setAuthNext, if_neg hcond]
      simp only [resolveAuthToken, h1]
      rw [setHeaderAuthorization, if_neg hvalid]
    · intro h1 h2 h3
      rw [setAuthNext, if_neg hcond]
      simp only [resolveAuthToken, h1, h2, h3]
      rw [setHeaderAuthorization, if_neg hvalid]
    · intro h1 h2 h3
      rw [setAuthNext, if_neg hcond]
      simp only [resolveAuthToken, h1, h2, h3]
      rw [setHeaderAuthorization, if_neg hvalid]
    · intro h1 h2 h3
      rw [setAuthNext, if_neg hcond]
      simp only [resolveAuthToken, h1, h2, h3]
      rw [setHeaderAuthorization, if_neg hvalid]
    · intro h1 h2 h3
      rw [setAuthNext, if_neg hcond]
      simp only [resolveAuthToken, h1, h2, h3]
    · intro h1 h2
      rw [setAuthNext, if_neg hcond]
      simp only [resolveAuthToken, h1, h2]
    · intro h1 h2 h3
      rw [setAuthNext, if_neg hcond]
      simp only [resolveAuthToken, h1, h2, h3]
  · intro hb1 hb2 h1
    rw [setAuthNext, if_neg hcond]
    simp only [resolveAuthToken, h1]
    rw [setHeaderAuthorization, if_pos ⟨hb2, hb1⟩]

/-- Witness for `auth_header_contract`: the configured spelling `bEARER` is
accepted case-insensitively and emitted as `BEARER tk` (upperFirst), and the
type `digest` fails with `AuthInvalid`. -/
theorem auth_header_contract_witness :
    setAuthNext (some (.obj ⟨some "bEARER", some "tk", none⟩)) (fun _ => none) [] =
      .ok [("Authorization", "BEARER tk")] ∧
    setAuthNext (some (.obj ⟨some "digest", some "tk", none⟩)) (fun _ => none) [] =
      .error .authInvalid :=
  ⟨(auth_header_contract ⟨some "bEARER", some "tk", none⟩ (fun _ => none) [] "tk" "X"
      rfl).1 (Or.inr (by decide)) |>.1 rfl,
   ((auth_header_contract ⟨some "digest", some "tk", none⟩ (fun _ => none) [] "tk" "X"
      rfl).2 (by decide) (by decide) rfl)⟩

/-- C6 counterexample: with `auth` configured but neither `token` nor
`token_env` present, the claim's precedence list resolves nothing and
predicts `TokenRequired`; the code instead falls back to the `NPM_TOKEN`
environment variable and succeeds with `Basic t0k`. -/
theorem auth_npm_token_fallback_counterexample :
    setAuthNext (some (.obj ⟨none, none, none⟩))
        (fun nm => if nm = "NPM_TOKEN" then some "t0k" else none) [] =
      .ok [("Authorization", "Basic t0k")] := by
  rfl

/-! ## Claim C7 — encode round-trips -/

theorem isUnreservedByte_ne_37 (b : Nat) (h : isUnreservedByte b = true) : b ≠ 37 := by
  simp only [isUnreservedByte, decide_eq_true_eq] at h
  omega

theorem hexValCode_hexDigitCode (n : Nat) (h : n < 16) :
    hexValCode (hexDigitCode n) = some n := by
  unfold hexDigitCode hexValCode
  by_cases h10 : n < 10
  · rw [if_pos h10, if_pos (by omega)]
    congr 1
    omega
  · rw [if_neg h10, if_neg (by omega), if_pos (by omega)]
    congr 1
    omega

theorem hexDigitCode_inj (m n : Nat) (hm : m < 16) (hn : n < 16)
    (h : hexDigitCode m = hexDigitCode n) : m = n := by
  unfold hexDigitCode at h
  split at h <;> split at h <;> omega

theorem percentDecode_cons_ne (c : Nat) (rest : List Nat) (h : c ≠ 37) :
    percentDecode (c :: rest) = (percentDecode rest).map (fun bs => c :: bs) := by
  rcases rest with _ | ⟨x, _ | ⟨y, t⟩⟩ <;> simp [percentDecode, h]

theorem percentDecode_encodeByte (b : Nat) (cs : List Nat) (hb : b < 256) :
    percentDecode (encodeByte b ++ cs) = (percentDecode cs).map (fun bs => b :: bs) := by
  unfold encodeByte
  by_cases hu : isUnreservedByte b = true
  · rw [if_pos hu]
    simp only [List.cons_append, List.nil_append]
    exact percentDecode_cons_ne b cs (isUnreservedByte_ne_37 b hu)
  · rw [if_neg hu]
    have h1 := hexValCode_hexDigitCode (b / 16) (by omega : b / 16 < 16)
    have h2 := hexValCode_hexDigitCode (b % 16) (by omega : b % 16 < 16)
    have hdm : 16 * (b / 16) + b % 16 = b := by omega
    simp only [List.cons_append, List.nil_append, percentDecode, h1, h2, hdm]
    simp

theorem percentDecode_encodeURI (bs : List Nat) (h : ∀ b ∈ bs, b < 256) :
    percentDecode (encodeURIComponentBytes bs) = some bs := by
  induction bs with
  | nil => rfl
  | cons b t ih =>
    rw [encodeURIComponentBytes, percentDecode_encodeByte b _ (h b (List.mem_cons_self b t)),
      ih (fun x hx => h x (List.mem_cons_of_mem b hx))]
    rfl

theorem replaceLeadingPct40_of_head_ne (c : Nat) (l : List Nat) (h : c ≠ 37) :
    replaceLeadingPct40 (c :: l) = c :: l := by
  unfold replaceLeadingPct40
  split
  · next rest heq =>
    injection heq with h1 _
    exact absurd h1 h
  · rfl

/-- C7: `encode` round-trips — percent-decoding the output recovers the input
bytes — and a leading `@` (byte 64) of a scoped name stays literal in the
output instead of being percent-encoded, so `@scope/pkg` encodes to
`@scope%2Fpkg`. -/
theorem encode_round_trip (bs : List Nat) (h : ∀ b ∈ bs, b < 256) :
    percentDecode (encode bs) = some bs ∧
    (∀ rest, bs = 64 :: rest → encode bs = 64 :: encodeURIComponentBytes rest) ∧
    encode (strBytes "@scope/pkg") = strBytes "@scope%2Fpkg" := by
  have hat : ∀ t : List Nat, encode (64 :: t) = 64 :: encodeURIComponentBytes t := by
    intro t
    rw [encode, encodeURIComponentBytes,
      show encodeByte 64 = [37, 52, 48] from by decide]
    rfl
  refine ⟨?_, ?_, by decide⟩
  · cases bs with
    | nil => rfl
    | cons b t =>
      have hb : b < 256 := h b (List.mem_cons_self b t)
      have ht : ∀ x ∈ t, x < 256 := fun x hx => h x (List.mem_cons_of_mem b hx)
      by_cases h64 : b = 64
      · subst h64
        rw [hat t, percentDecode_cons_ne 64 _ (by decide), percentDecode_encodeURI t ht]
        rfl
      · have hkeep : encode (b :: t) = encodeURIComponentBytes (b :: t) := by
          rw [encode, encodeURIComponentBytes]
          unfold encodeByte
          by_cases hu : isUnreservedByte b = true
          · rw [if_pos hu]
            simp only [List.cons_append, List.nil_append]
            exact replaceLeadingPct40_of_head_ne b _ (isUnreservedByte_ne_37 b hu)
          · rw [if_neg hu]
            simp only [List.cons_append, List.nil_append]
            unfold replaceLeadingPct40
            split
            · next rest heq =>
              injection heq with e1 heq2
              injection heq2 with e2 heq3
              injection heq3 with e3 _
              have hq : b / 16 = 4 := hexDigitCode_inj _ _ (by omega) (by omega) (e2.trans rfl)
              have hr : b % 16 = 0 := hexDigitCode_inj _ _ (by omega) (by omega) (e3.trans rfl)
              exact absurd (by omega : b = 64) h64
            · rfl
        rw [hkeep, percentDecode_encodeURI _ h]
  · intro rest hrest
    subst hrest
    exact hat rest

/-- Witness for `encode_round_trip` on the scoped name `@scope/pkg`. -/
theorem encode_round_trip_witness :
    percentDecode (encode (strBytes "@scope/pkg")) = some (strBytes "@scope/pkg") :=
  (encode_round_trip (strBytes "@scope/pkg") (by decide)).1

end VerdaccioProxy
